import Mathlib

/-!
Shallow embedding of the contact-manager core in src/main.py:
validated fields (Name, Phone, Birthday), Contact records, the
AddressBook container, binary persistence, and the days-to-birthday
computation.  Python machine behaviour that the source relies on
(object identity for `in` and `list.index`, `str.isdigit`,
`datetime.strptime`, `datetime` comparison and `timedelta.days`) is
embedded explicitly, as documented on each definition.
-/

set_option maxRecDepth 4000

namespace HW

/-- Error kinds raised by the core.  In Python, `validationError` and
`notFoundError` are both `ValueError` (the former carries a message, the
latter is the bare `raise ValueError` in `Contact.edit_phone`);
`fileNotFoundError` is the builtin `FileNotFoundError`. -/
inductive PyErr where
  | validationError
  | notFoundError
  | fileNotFoundError
deriving DecidableEq, Repr

instance exceptDecEq {ε α : Type} [DecidableEq ε] [DecidableEq α] :
    DecidableEq (Except ε α) := fun x y =>
  match x, y with
  | .ok a, .ok b =>
    if h : a = b then isTrue (by rw [h])
    else isFalse (by intro hh; cases hh; exact h rfl)
  | .error a, .error b =>
    if h : a = b then isTrue (by rw [h])
    else isFalse (by intro hh; cases hh; exact h rfl)
  | .ok _, .error _ => isFalse (by intro hh; cases hh)
  | .error _, .ok _ => isFalse (by intro hh; cases hh)

/-! ### Unicode digit model

CPython `str.isdigit` accepts every character of Unicode category Nd
(decimal digits) plus the characters with Numeric_Type=Digit; the regex
class \d used by `_strptime` matches exactly category Nd, and `int`
converts Nd characters by their digit value.  Category Nd consists of
contiguous runs of ten code points (digit 0 first); `ndStarts` lists the
first code point of each run (UnicodeData). -/

def ndStarts : List Nat :=
  [0x30, 0x660, 0x6F0, 0x7C0, 0x966, 0x9E6, 0xA66, 0xAE6, 0xB66, 0xBE6,
   0xC66, 0xCE6, 0xD66, 0xDE6, 0xE50, 0xED0, 0xF20, 0x1040, 0x1090, 0x17E0,
   0x1810, 0x1946, 0x19D0, 0x1A80, 0x1A90, 0x1B50, 0x1BB0, 0x1C40, 0x1C50,
   0xA620, 0xA8D0, 0xA900, 0xA9D0, 0xA9F0, 0xAA50, 0xABF0, 0xFF10,
   0x104A0, 0x10D30, 0x11066, 0x110F0, 0x11136, 0x111D0, 0x112F0, 0x11450,
   0x114D0, 0x11650, 0x116C0, 0x11730, 0x118E0, 0x11950, 0x11C50, 0x11D50,
   0x11DA0, 0x16A60, 0x16B50, 0x1D7CE, 0x1D7D8, 0x1D7E2, 0x1D7EC, 0x1D7F6,
   0x1E140, 0x1E2F0, 0x1E950, 0x1FBF0]

/-- Digit value of a category-Nd character (`none` for all others).
This is what the regex class \d matched by `_strptime` accepts and the
value `int` assigns to the character. -/
def ndVal? (c : Char) : Option Nat :=
  ndStarts.findSome? fun s =>
    if s ≤ c.toNat ∧ c.toNat < s + 10 then some (c.toNat - s) else none

/-- Code-point ranges (start, length) with Numeric_Type=Digit but outside
category Nd: superscripts and subscripts, Ethiopic digits, circled,
parenthesized, full-stop, double-circled and dingbat digits, Kharoshthi
digits.  `str.isdigit` accepts these as well. -/
def digitOnlyRanges : List (Nat × Nat) :=
  [(0xB2, 2), (0xB9, 1), (0x1369, 9), (0x2070, 1), (0x2074, 6),
   (0x2080, 10), (0x2460, 9), (0x2474, 9), (0x2488, 9), (0x24EA, 1),
   (0x24F5, 9), (0x2776, 9), (0x2780, 9), (0x278A, 9), (0x10A40, 4)]

def inRanges (rs : List (Nat × Nat)) (n : Nat) : Bool :=
  rs.any fun r => decide (r.1 ≤ n ∧ n < r.1 + r.2)

/-- CPython `str.isdigit` on a single character: Unicode category Nd or
Numeric_Type=Digit.  Strictly larger than the ASCII digit set. -/
def pyIsDigitChar (c : Char) : Bool :=
  (ndVal? c).isSome || inRanges digitOnlyRanges c.toNat

/-- CPython `str.isdigit`: nonempty and every character a digit. -/
def pyStrIsDigit (cs : List Char) : Bool :=
  !cs.isEmpty && cs.all pyIsDigitChar

/-! ### Phone -/

/-- `Phone.validate` (main.py lines 32 to 34): the stored value is valid
iff it is a string (always true here, values are strings by type), its
length is exactly 10 and `isdigit` holds. -/
def phoneValidateL (cs : List Char) : Bool :=
  cs.length == 10 && pyStrIsDigit cs

def phoneValidate (s : String) : Bool := phoneValidateL s.data

/-- `Phone.__init__`: stores the value, then validates; a failed
validation raises and the half-built object is discarded, so
construction is value-or-error. -/
def phoneNew (s : String) : Except PyErr String :=
  if phoneValidate s then .ok s else .error .validationError

/-- The `Phone.value` setter (main.py lines 40 to 43): it assigns
`_value = new_value` FIRST and only then calls `validate`, so the field
holds the new value even when validation raises.  Result: stored value
after the call, and the raised error if any. -/
def phoneSet (_v w : String) : String × Option PyErr :=
  (w, if phoneValidate w then none else some PyErr.validationError)

/-! ### Birthday

`Birthday.validate_b` (main.py lines 51 to 58) calls
`datetime.strptime(value, "%Y-%m-%d")`.  CPython `_strptime` compiles
the format to the regex
Y = dddd (d the class \d), m = 1[0-2]|0[1-9]|[1-9], d = 3[01]|[12]\d|0[1-9]|[1-9],
joined by literal hyphens, anchored at the start, and rejects the input
unless the match consumes the whole string; the matched groups go
through `int` and then the `datetime` constructor, which requires
year in [1, 9999] and day at most the length of that month in that year
(so strptime itself rejects day counts that do not exist, e.g. Feb 30).
Since the month and day tokens never contain a hyphen, the regex accepts
exactly the strings whose split on the hyphen has three fields accepted
by the three token languages below. -/

/-- Split on the hyphen character, like Python str.split("-"). -/
def splitDash : List Char → List (List Char)
  | [] => [[]]
  | c :: rest =>
    if c = '-' then [] :: splitDash rest
    else
      match splitDash rest with
      | [] => [[c]]
      | f :: fs => (c :: f) :: fs

/-- The %Y token: exactly four \d characters, value by digit fold. -/
def yearVal? : List Char → Option Nat
  | [a, b, c, d] =>
    match ndVal? a, ndVal? b, ndVal? c, ndVal? d with
    | some va, some vb, some vc, some vd =>
      some (((va * 10 + vb) * 10 + vc) * 10 + vd)
    | _, _, _, _ => none
  | _ => none

/-- The %m token: regex 1[0-2]|0[1-9]|[1-9] (the bracket classes are
ASCII literals). -/
def monthVal? : List Char → Option Nat
  | [c] => if '1' ≤ c ∧ c ≤ '9' then some (c.toNat - 48) else none
  | [c₁, c₂] =>
    if c₁ = '1' ∧ '0' ≤ c₂ ∧ c₂ ≤ '2' then some (10 + (c₂.toNat - 48))
    else if c₁ = '0' ∧ '1' ≤ c₂ ∧ c₂ ≤ '9' then some (c₂.toNat - 48)
    else none
  | _ => none

/-- The %d token: regex 3[01]|[12]\d|0[1-9]|[1-9]; the second character
of the [12]\d branch is the Unicode class \d. -/
def dayVal? : List Char → Option Nat
  | [c] => if '1' ≤ c ∧ c ≤ '9' then some (c.toNat - 48) else none
  | [c₁, c₂] =>
    if c₁ = '3' ∧ (c₂ = '0' ∨ c₂ = '1') then some (30 + (c₂.toNat - 48))
    else if c₁ = '1' ∨ c₁ = '2' then
      match ndVal? c₂ with
      | some v => some ((c₁.toNat - 48) * 10 + v)
      | none => none
    else if c₁ = '0' ∧ '1' ≤ c₂ ∧ c₂ ≤ '9' then some (c₂.toNat - 48)
    else none
  | _ => none

def isLeapYear (y : Nat) : Bool :=
  y % 4 == 0 && (y % 100 != 0 || y % 400 == 0)

def daysInMonth (y m : Nat) : Nat :=
  if m = 2 then (if isLeapYear y then 29 else 28)
  else if m = 4 ∨ m = 6 ∨ m = 9 ∨ m = 11 then 30
  else 31

/-- `datetime.strptime(s, "%Y-%m-%d")`: regex match as described above,
then the `datetime(year, month, day)` constructor, which additionally
requires year in [1, 9999] and day within the month. -/
def parseYMD (cs : List Char) : Option (Nat × Nat × Nat) :=
  match splitDash cs with
  | [ys, ms, ds] =>
    match yearVal? ys, monthVal? ms, dayVal? ds with
    | some y, some m, some d =>
      if 1 ≤ y ∧ y ≤ 9999 ∧ 1 ≤ m ∧ m ≤ 12 ∧ 1 ≤ d ∧ d ≤ daysInMonth y m then
        some (y, m, d)
      else none
    | _, _, _ => none
  | _ => none

/-- `Birthday.validate_b`: strptime (ValueError on failure, mapped to
`validationError`), then the explicit range check
1 <= month <= 12 and 1 <= day <= 31 (always true after a successful
parse, kept for fidelity). -/
def birthdayValidateL (cs : List Char) : Bool :=
  match parseYMD cs with
  | none => false
  | some (_, m, d) => decide (1 ≤ m ∧ m ≤ 12 ∧ 1 ≤ d ∧ d ≤ 31)

def birthdayValidate (s : String) : Bool := birthdayValidateL s.data

/-- `Birthday.__init__`: store then validate; value-or-error. -/
def birthdayNew (s : String) : Except PyErr String :=
  if birthdayValidate s then .ok s else .error .validationError

/-- The `Birthday.value` setter (main.py lines 64 to 67): like the Phone
setter it assigns before validating, so the new value is stored even
when validation raises. -/
def birthdaySet (_v w : String) : String × Option PyErr :=
  (w, if birthdayValidate w then none else some PyErr.validationError)

/-! ### Contact

`Field` defines no `__eq__`, so comparison of two `Phone` objects with
`==` (and hence the `in` and `list.index` operations used below) falls
back to object identity.  A `PhoneObj` therefore carries an allocation
identity `objId` next to its string value; two occurrences of the same
Python object have the same `objId` (and hence the same value), and a
freshly constructed `Phone` has an `objId` different from every object
already in the list. -/

structure PhoneObj where
  objId : Nat
  value : String
deriving DecidableEq, Repr

/-- An `objId` strictly larger than that of every object in the list:
models allocation of a new `Phone` object, which is identical to no
existing one. -/
def freshPhoneId (ps : List PhoneObj) : Nat :=
  ps.foldr (fun p acc => max p.objId acc) 0 + 1

/-- The Python `in` test on a list of `Field` objects: identity
comparison, since `Field` has no `__eq__`. -/
def pyInPhones (p : PhoneObj) (ps : List PhoneObj) : Bool :=
  ps.any fun q => q.objId == p.objId

/-- Python `list.index` with identity comparison. -/
def pyIndexOf (p : PhoneObj) (ps : List PhoneObj) : Nat :=
  ps.findIdx fun q => q.objId == p.objId

/-- A `Contact` (main.py lines 129 to 184): a verbatim name (Name has no
validation), a list of Phone objects, and the `birthday` attribute,
which the constructor stores verbatim without any validation
(`none` models the Python `None` default). -/
structure Contact where
  name : String
  phones : List PhoneObj
  birthday : Option String
deriving DecidableEq, Repr

/-- Python truthiness of the `birthday` attribute as used in
`__str__` and `days_to_birthday`: `None` and the empty string are
falsy. -/
def birthdayTruthy : Option String → Bool
  | none => false
  | some s => s != ""

/-- `Contact.__init__`: `[Phone(p) for p in (phones or [])]` validates
every initial phone (construction fails on the first bad one), and the
birthday argument is stored verbatim.  Successive `Phone` allocations
get distinct identities, modelled as position + 1. -/
def mkPhoneObjs (phones : List String) : List PhoneObj :=
  phones.enum.map fun e => ⟨e.1 + 1, e.2⟩

def contactNew (name : String) (phones : List String) (birthday : Option String) :
    Except PyErr Contact :=
  if phones.all phoneValidate then .ok ⟨name, mkPhoneObjs phones, birthday⟩
  else .error .validationError

/-- `Contact.__str__`: semicolon-joined phone values, birthday clause
only when the attribute is truthy. -/
def renderContact (c : Contact) : String :=
  let phonesStr := String.intercalate "; " (c.phones.map PhoneObj.value)
  if birthdayTruthy c.birthday then
    "Contact name: " ++ c.name ++ ", phones: " ++ phonesStr ++
      ", birthday: " ++ c.birthday.getD ""
  else
    "Contact name: " ++ c.name ++ ", phones: " ++ phonesStr

/-- `Contact.add_phone` (main.py lines 146 to 149): construct a Phone
(may raise), then `if phone not in self.phones` — an identity test that
is false for the fresh object — and append. -/
def add_phone (c : Contact) (s : String) : Contact × Option PyErr :=
  if phoneValidate s then
    let p : PhoneObj := ⟨freshPhoneId c.phones, s⟩
    if pyInPhones p c.phones then (c, none)
    else ({ c with phones := c.phones ++ [p] }, none)
  else (c, some PyErr.validationError)

/-- One pass of the `for phone in self.phones` loop in
`Contact.edit_phone`: Python iterates the live list by an internal
index; element assignment keeps the length, so the loop visits indices
0, 1, ... until the end of the list.  The fuel argument starts at the
list length, which the body preserves. -/
def editLoop (oldv : String) (nw : PhoneObj) :
    Nat → Nat → List PhoneObj → Bool → List PhoneObj × Bool
  | 0, _, ps, flag => (ps, flag)
  | fuel + 1, i, ps, flag =>
    match ps[i]? with
    | none => (ps, flag)
    | some phone =>
      if phone.value = oldv then
        editLoop oldv nw fuel (i + 1) (ps.set (pyIndexOf phone ps) nw) false
      else
        editLoop oldv nw fuel (i + 1) ps flag

/-- `Contact.edit_phone` (main.py lines 157 to 167): validate old, then
new (ValueError propagates before any mutation), then run the loop that
replaces, via `list.index` with identity comparison, every phone whose
value equals the old value by the single freshly built new object;
`raise ValueError` (mapped to `notFoundError`) if no match was seen.
Result: the phone list after the call and the raised error, if any. -/
def edit_phone (ps : List PhoneObj) (olds news : String) :
    List PhoneObj × Option PyErr :=
  if phoneValidate olds then
    if phoneValidate news then
      let nw : PhoneObj := ⟨freshPhoneId ps, news⟩
      let r := editLoop olds nw ps.length 0 ps true
      if r.2 then (r.1, some PyErr.notFoundError) else (r.1, none)
    else (ps, some PyErr.validationError)
  else (ps, some PyErr.validationError)

/-! ### AddressBook -/

/-- The AddressBook dict, insertion-ordered, keys unique. -/
def BookData := List (String × Contact)

/-- Python substring containment (the `in` operator on strings). -/
def strContains (needle : List Char) : List Char → Bool
  | [] => needle.isEmpty
  | c :: t => needle.isPrefixOf (c :: t) || strContains needle t

/-- str.lower, character by character.  The source only lowercases
contact names and queries; the model maps the ASCII uppercase letters
and leaves every other character unchanged. -/
def lowerChar (c : Char) : Char :=
  if 'A' ≤ c ∧ c ≤ 'Z' then Char.ofNat (c.toNat + 32) else c

def lowerL (cs : List Char) : List Char := cs.map lowerChar

/-- The name test in `AddressBook.search`:
`query.lower() in name.lower()`. -/
def nameHit (q name : String) : Bool :=
  strContains (lowerL q.data) (lowerL name.data)

/-- The phone test in `AddressBook.search`: `query in phone.value`,
case sensitive. -/
def phoneHit (q : String) (p : PhoneObj) : Bool :=
  strContains q.data p.value.data

/-- `AddressBook.search` (main.py lines 80 to 88), faithful loop:
`matches` starts empty; for every entry in dict order the record is
appended once if the lowered query occurs in the lowered name, and once
more for every phone whose value contains the raw query. -/
def searchAcc (q : String) : List (String × Contact) → List Contact → List Contact
  | [], acc => acc
  | (name, rec) :: rest, acc =>
    let acc₁ := if nameHit q name then acc ++ [rec] else acc
    let acc₂ := rec.phones.foldl
      (fun a p => if phoneHit q p then a ++ [rec] else a) acc₁
    searchAcc q rest acc₂

def search (book : BookData) (q : String) : List Contact :=
  searchAcc q book []

/-- The matches a single book entry contributes to `search`, in order:
one for the case-insensitive name hit, then one per phone containing
the query.  This is the specification-side formulation. -/
def searchEntryMatches (q : String) (e : String × Contact) : List Contact :=
  (if nameHit q e.1 then [e.2] else []) ++
    e.2.phones.filterMap fun p => if phoneHit q p then some e.2 else none

/-- One rendered line of `AddressBook.iterator`. -/
def iterLine (e : String × Contact) : String :=
  e.1 ++ ": " ++ renderContact e.2 ++ "\n"

/-- The generator body of `AddressBook.iterator` (main.py lines 94 to
105): accumulate lines into `result`, increment `counter`, yield and
reset when `counter >= item_number`, and yield a final nonempty
remainder (`if result:`). -/
def iterLoop (itemNumber : Int) : List String → Int → String → List String
  | [], _, result => if result == "" then [] else [result]
  | l :: rest, counter, result =>
    let result₂ := result ++ l
    if itemNumber ≤ counter + 1 then result₂ :: iterLoop itemNumber rest 0 ""
    else iterLoop itemNumber rest (counter + 1) result₂

/-- `AddressBook.iterator(item_number)`: the finite sequence of pages the
generator yields over a snapshot of the dict. -/
def iterator (book : BookData) (itemNumber : Int) : List String :=
  iterLoop itemNumber (book.map iterLine) 0 ""

/-- Outcome of `AddressBook.load_bin` (main.py lines 115 to 120): the
dict after the call, the exception that propagated to the caller (if
any), and whether the not-found message was printed.  The filesystem is
a map from path to stored dict (a successful `pickle.load` of a blob
this program saved). -/
structure LoadResult where
  data : List (String × Contact)
  raised : Option PyErr
  printedNotFound : Bool
deriving DecidableEq, Repr

/-- `AddressBook.load_bin`: `open` raises `FileNotFoundError` when the
path is absent, but the `except FileNotFoundError` clause catches it and
prints a message, so no exception reaches the caller and `self.data` is
left untouched; on success the dict is replaced wholesale. -/
def load_bin (fs : List (String × List (String × Contact))) (path : String)
    (data : List (String × Contact)) : LoadResult :=
  match List.lookup path fs with
  | none => ⟨data, none, true⟩
  | some d => ⟨d, none, false⟩

/-! ### datetime model for days_to_birthday

A `PyDateTime` is a `datetime`: a proleptic Gregorian date plus the time
of day in microseconds (`datetime.now()` has a nonzero time of day
except exactly at midnight; `datetime(y, m, d)` has time of day 0).
Comparison is field-lexicographic, as in CPython. -/

structure PyDateTime where
  year : Nat
  month : Nat
  day : Nat
  tod : Nat
deriving DecidableEq, Repr

/-- Microseconds in a day. -/
def DAYUS : Nat := 86400000000

/-- Days before the months preceding month m of year y. -/
def daysBeforeMonth (y m : Nat) : Nat :=
  ((List.range (m - 1)).map fun i => daysInMonth y (i + 1)).sum

/-- `datetime.toordinal`: day number of a proleptic Gregorian date. -/
def ordinal (y m d : Nat) : Nat :=
  365 * (y - 1) + (y - 1) / 4 - (y - 1) / 100 + (y - 1) / 400 +
    daysBeforeMonth y m + d

/-- Microsecond timestamp of a `datetime`. -/
def dtMicros (t : PyDateTime) : Nat :=
  ordinal t.year t.month t.day * DAYUS + t.tod

/-- CPython `datetime` comparison: lexicographic on the fields. -/
def dtLt (a b : PyDateTime) : Bool :=
  decide (a.year < b.year ∨ (a.year = b.year ∧ (a.month < b.month ∨
    (a.month = b.month ∧ (a.day < b.day ∨
      (a.day = b.day ∧ a.tod < b.tod))))))

/-- The `datetime(year, month, day)` constructor: raises ValueError
unless year is in [1, 9999], month in [1, 12] and day in
[1, days in that month]. -/
def dtMake (y m d : Nat) : Except PyErr PyDateTime :=
  if 1 ≤ y ∧ y ≤ 9999 ∧ 1 ≤ m ∧ m ≤ 12 ∧ 1 ≤ d ∧ d ≤ daysInMonth y m then
    .ok ⟨y, m, d, 0⟩
  else .error .validationError

/-- `(a - b).days`: a `timedelta` normalizes with floor division; Int
division here is Euclidean, which agrees with Python floor division for
the positive divisor DAYUS. -/
def tdDays (a b : PyDateTime) : Int :=
  ((dtMicros a : Int) - (dtMicros b : Int)) / (DAYUS : Int)

def mkDaysMsg (n : Int) (name : String) : String :=
  toString n ++ " days left until birthday " ++ name

/-- `Contact.days_to_birthday` (main.py lines 175 to 184), with the
current `datetime.now()` passed explicitly: `None` for a falsy birthday;
otherwise strptime the stored string (ValueError propagates), build this
year's `datetime` of the stored month and day, move to next year when
`today > next_birthday` (a comparison against midnight, so any positive
time of day on the birthday itself exceeds it), and report
`(next_birthday - today).days`. -/
def days_to_birthday (today : PyDateTime) (c : Contact) :
    Except PyErr (Option String) :=
  match c.birthday with
  | none => .ok none
  | some b =>
    if b == "" then .ok none
    else
      match parseYMD b.data with
      | none => .error PyErr.validationError
      | some (_, m, d) =>
        match dtMake today.year m d with
        | .error e => .error e
        | .ok nb =>
          if dtLt nb today then
            match dtMake (today.year + 1) m d with
            | .error e => .error e
            | .ok nb₂ => .ok (some (mkDaysMsg (tdDays nb₂ today) c.name))
          else .ok (some (mkDaysMsg (tdDays nb today) c.name))

/-! ### Auxiliary definitions used by the statements -/

/-- Well-formedness of a Python phone list: object identity determines
the object, so two occurrences with the same `objId` are the same
object.  Every list reachable in the program satisfies this: distinct
objects get distinct ids, and the same object listed twice agrees with
itself. -/
def PhonesWf (ps : List PhoneObj) : Prop :=
  ∀ p ∈ ps, ∀ q ∈ ps, p.objId = q.objId → p = q

/-- Replace-all-matches: every phone whose value equals the old value
becomes the (single) new object, everything else stays in place. -/
def replPh (oldv : String) (nw : PhoneObj) (p : PhoneObj) : PhoneObj :=
  if p.value = oldv then nw else p

/-- ASCII digit character for a value below ten. -/
def dChar (n : Nat) : Char := Char.ofNat (48 + n)

/-- Two-digit zero-padded rendering and four-digit zero-padded
rendering, used to build the canonical YYYY-MM-DD strings. -/
def pad2 (n : Nat) : List Char := [dChar (n / 10 % 10), dChar (n % 10)]

def pad4 (n : Nat) : List Char :=
  [dChar (n / 1000 % 10), dChar (n / 100 % 10), dChar (n / 10 % 10),
   dChar (n % 10)]

/-- The canonical zero-padded YYYY-MM-DD character string. -/
def mkDateStr (y m d : Nat) : List Char :=
  pad4 y ++ '-' :: (pad2 m ++ '-' :: pad2 d)

/-- Concrete fixtures. -/
def aliceC : Contact := ⟨"Alice", [⟨1, "1234567890"⟩], none⟩

def bobC : Contact := ⟨"Bob", [⟨1, "1234567890"⟩], none⟩

def book₁ : BookData := [("Alice", aliceC)]

/-! ## Helper lemmas -/

lemma asciiDigit_pyIsDigit (c : Char) (h0 : '0' ≤ c) (h9 : c ≤ '9') :
    pyIsDigitChar c = true := by
  have h48 : (48 : Nat) ≤ c.toNat := h0
  have h57 : c.toNat ≤ 57 := h9
  have hnd : ndVal? c = some (c.toNat - 48) := by
    unfold ndVal? ndStarts
    simp only [List.findSome?]
    rw [if_pos ⟨h48, by omega⟩]
  simp [pyIsDigitChar, hnd]

lemma str_empty_append (s : String) : "" ++ s = s := by
  cases s
  rfl

lemma iterLoop_nonpos (n : Int) (hn : n ≤ 0) :
    ∀ ls : List String, iterLoop n ls 0 "" = ls := by
  intro ls
  induction ls with
  | nil => rfl
  | cons l rest ih =>
    show (if n ≤ 0 + 1 then ("" ++ l) :: iterLoop n rest 0 ""
      else iterLoop n rest (0 + 1) ("" ++ l)) = l :: rest
    rw [if_pos (by omega), str_empty_append, ih]

lemma foldl_appendIf (q : String) (rec : Contact) :
    ∀ (ps : List PhoneObj) (a : List Contact),
      ps.foldl (fun a p => if phoneHit q p then a ++ [rec] else a) a =
        a ++ ps.filterMap (fun p => if phoneHit q p then some rec else none) := by
  intro ps
  induction ps with
  | nil => intro a; simp
  | cons p rest ih =>
    intro a
    by_cases h : phoneHit q p = true
    · simp [List.foldl_cons, List.filterMap_cons, h, ih]
    · simp [List.foldl_cons, List.filterMap_cons, h, ih]

lemma searchAcc_eq (q : String) :
    ∀ (l : List (String × Contact)) (acc : List Contact),
      searchAcc q l acc = acc ++ l.flatMap (searchEntryMatches q) := by
  intro l
  induction l with
  | nil => intro acc; simp [searchAcc]
  | cons e rest ih =>
    intro acc
    obtain ⟨name, rec⟩ := e
    simp only [searchAcc]
    rw [foldl_appendIf, ih]
    unfold searchEntryMatches
    by_cases h : nameHit q name = true
    · simp [h, List.flatMap_cons]
    · simp [h, List.flatMap_cons]

lemma dChar_ne_dash (n : Nat) (h : n < 10) : dChar n ≠ '-' := by
  interval_cases n <;> decide

lemma pad2_no_dash (n : Nat) : ∀ c ∈ pad2 n, c ≠ '-' := by
  intro c hc
  simp [pad2] at hc
  rcases hc with h | h <;> (subst h; exact dChar_ne_dash _ (by omega))

lemma pad4_no_dash (n : Nat) : ∀ c ∈ pad4 n, c ≠ '-' := by
  intro c hc
  simp [pad4] at hc
  rcases hc with h | h | h | h <;> (subst h; exact dChar_ne_dash _ (by omega))

lemma splitDash_sep (l₁ rest : List Char) (h : ∀ c ∈ l₁, c ≠ '-') :
    splitDash (l₁ ++ '-' :: rest) = l₁ :: splitDash rest := by
  induction l₁ with
  | nil => simp [splitDash]
  | cons c l ih =>
    have hc : c ≠ '-' := h c (by simp)
    have hl : ∀ x ∈ l, x ≠ '-' := fun x hx => h x (by simp [hx])
    simp only [List.cons_append, splitDash]
    rw [if_neg hc]
    simp only [List.append_eq]
    rw [ih hl]

lemma splitDash_no_dash (l : List Char) (h : ∀ c ∈ l, c ≠ '-') :
    splitDash l = [l] := by
  induction l with
  | nil => rfl
  | cons c r ih =>
    have hc : c ≠ '-' := h c (by simp)
    have hr : ∀ x ∈ r, x ≠ '-' := fun x hx => h x (by simp [hx])
    simp only [splitDash]
    rw [if_neg hc, ih hr]

lemma ndVal_dChar (n : Nat) (h : n < 10) : ndVal? (dChar n) = some n := by
  interval_cases n <;> decide

lemma yearVal_pad4 (y : Nat) (h : y ≤ 9999) : yearVal? (pad4 y) = some y := by
  show yearVal? [dChar (y / 1000 % 10), dChar (y / 100 % 10),
    dChar (y / 10 % 10), dChar (y % 10)] = some y
  simp only [yearVal?]
  rw [ndVal_dChar _ (by omega), ndVal_dChar _ (by omega),
    ndVal_dChar _ (by omega), ndVal_dChar _ (by omega)]
  simp only [Option.some.injEq]
  omega

lemma monthVal_pad2 (m : Nat) (h1 : 1 ≤ m) (h2 : m ≤ 12) :
    monthVal? (pad2 m) = some m := by
  interval_cases m <;> decide

lemma dayVal_pad2 (d : Nat) (h1 : 1 ≤ d) (h2 : d ≤ 31) :
    dayVal? (pad2 d) = some d := by
  interval_cases d <;> decide

lemma parseYMD_mkDateStr (y m d : Nat) (hy1 : 1 ≤ y) (hy2 : y ≤ 9999)
    (hm1 : 1 ≤ m) (hm2 : m ≤ 12) (hd1 : 1 ≤ d) (hd2 : d ≤ 31) :
    parseYMD (mkDateStr y m d) =
      if d ≤ daysInMonth y m then some (y, m, d) else none := by
  have hsplit : splitDash (mkDateStr y m d) = [pad4 y, pad2 m, pad2 d] := by
    unfold mkDateStr
    rw [splitDash_sep _ _ (pad4_no_dash y), splitDash_sep _ _ (pad2_no_dash m),
      splitDash_no_dash _ (pad2_no_dash d)]
  unfold parseYMD
  rw [hsplit]
  simp only [yearVal_pad4 y hy2, monthVal_pad2 m hm1 hm2,
    dayVal_pad2 d hd1 hd2]
  by_cases hdd : d ≤ daysInMonth y m
  · rw [if_pos ⟨hy1, hy2, hm1, hm2, hd1, hdd⟩, if_pos hdd]
  · rw [if_neg (by tauto), if_neg hdd]

lemma birthdayValidateL_mkDateStr (y m d : Nat) (hy1 : 1 ≤ y) (hy2 : y ≤ 9999)
    (hm1 : 1 ≤ m) (hm2 : m ≤ 12) (hd1 : 1 ≤ d) (hd2 : d ≤ 31) :
    birthdayValidateL (mkDateStr y m d) = true ↔ d ≤ daysInMonth y m := by
  unfold birthdayValidateL
  rw [parseYMD_mkDateStr y m d hy1 hy2 hm1 hm2 hd1 hd2]
  by_cases hdd : d ≤ daysInMonth y m
  · rw [if_pos hdd]
    simpa [hm1, hm2, hd1, hd2] using hdd
  · rw [if_neg hdd]
    simpa using hdd

lemma freshPhoneId_gt (ps : List PhoneObj) : ∀ p ∈ ps, p.objId < freshPhoneId ps := by
  unfold freshPhoneId
  induction ps with
  | nil => intro p hp; cases hp
  | cons q rest ih =>
    intro p hp
    simp only [List.foldr_cons]
    rcases List.mem_cons.mp hp with h | h
    · subst h
      exact Nat.lt_succ_of_le (Nat.le_max_left _ _)
    · exact Nat.lt_succ_of_le (le_trans (Nat.le_of_lt_succ (ih p h))
        (Nat.le_max_right _ _))

lemma findIdx_append_false {α : Type} (p : α → Bool) (l₁ l₂ : List α)
    (h : ∀ a ∈ l₁, p a = false) :
    List.findIdx p (l₁ ++ l₂) = l₁.length + List.findIdx p l₂ := by
  induction l₁ with
  | nil => simp
  | cons a l ih =>
    have ha : p a = false := h a (by simp)
    have hl : ∀ x ∈ l, p x = false := fun x hx => h x (by simp [hx])
    simp [List.findIdx_cons, ha, ih hl]
    omega

lemma set_append_length {α : Type} (l₁ l₂ : List α) (a : α) :
    (l₁ ++ l₂).set l₁.length a = l₁ ++ l₂.set 0 a := by
  induction l₁ with
  | nil => simp
  | cons b l ih => simp [ih]
lemma set_append_idx {α : Type} (l₁ l₂ : List α) (n : Nat) (h : l₁.length = n)
    (a : α) : (l₁ ++ l₂).set n a = l₁ ++ l₂.set 0 a := by
  subst h
  exact set_append_length l₁ l₂ a

lemma editLoop_go (oldv : String) (nw : PhoneObj) (orig : List PhoneObj)
    (hwf : PhonesWf orig) (hfresh : ∀ p ∈ orig, p.objId < nw.objId) :
    ∀ k i, i + k = orig.length →
      editLoop oldv nw k i
          ((orig.take i).map (replPh oldv nw) ++ orig.drop i)
          ((orig.take i).all fun p => !(p.value == oldv)) =
        (orig.map (replPh oldv nw), orig.all fun p => !(p.value == oldv)) := by
  intro k
  induction k with
  | zero =>
    intro i hi
    have hi' : i = orig.length := by omega
    subst hi'
    simp [editLoop, List.take_length, List.drop_length]
  | succ k ih =>
    intro i hi
    have hlt : i < orig.length := by omega
    have hpre_len : ((orig.take i).map (replPh oldv nw)).length = i := by
      simp [List.length_take]
      omega
    have hget :
        ((orig.take i).map (replPh oldv nw) ++ orig.drop i)[i]? =
          some orig[i] := by
      rw [List.getElem?_append_right (by omega), hpre_len, Nat.sub_self,
        List.getElem?_drop, Nat.add_zero]
      exact List.getElem?_eq_getElem hlt
    simp only [editLoop, hget]
    by_cases hv : orig[i].value = oldv
    · rw [if_pos hv]
      have hbt : (orig[i].value == oldv) = true := beq_iff_eq.mpr hv
      have hprefalse : ∀ q ∈ (orig.take i).map (replPh oldv nw),
          (q.objId == orig[i].objId) = false := by
        intro q hq
        obtain ⟨p, hp, rfl⟩ := List.mem_map.mp hq
        have hpo : p ∈ orig := List.take_subset i orig hp
        unfold replPh
        by_cases hpv : p.value = oldv
        · rw [if_pos hpv]
          have hf : orig[i].objId < nw.objId :=
            hfresh _ (List.getElem_mem hlt)
          exact beq_eq_false_iff_ne.mpr (by omega)
        · rw [if_neg hpv]
          by_contra hbe
          have heq : p.objId = orig[i].objId := by
            by_contra hne
            exact hbe (beq_eq_false_iff_ne.mpr hne)
          have hpe := hwf p hpo orig[i] (List.getElem_mem hlt) heq
          exact hpv (by rw [hpe]; exact hv)
      have hidx : pyIndexOf orig[i]
          ((orig.take i).map (replPh oldv nw) ++ orig.drop i) = i := by
        unfold pyIndexOf
        rw [findIdx_append_false _ _ _ hprefalse, hpre_len,
          List.drop_eq_getElem_cons hlt, List.findIdx_cons]
        simp
      rw [hidx]
      have hrepl : replPh oldv nw orig[i] = nw := by
        simp [replPh, hv]
      have htake : (orig.take (i + 1)).map (replPh oldv nw) =
          (orig.take i).map (replPh oldv nw) ++ [nw] := by
        rw [List.take_succ, List.getElem?_eq_getElem hlt, List.map_append]
        simp [hrepl]
      have hset : ((orig.take i).map (replPh oldv nw) ++ orig.drop i).set i nw =
          (orig.take (i + 1)).map (replPh oldv nw) ++ orig.drop (i + 1) := by
        rw [set_append_idx _ _ i hpre_len,
          List.drop_eq_getElem_cons hlt, List.set_cons_zero, htake]
        simp
      rw [hset]
      have hflag : ((orig.take (i + 1)).all fun p => !(p.value == oldv)) = false := by
        have hmem : orig[i] ∈ orig.take (i + 1) := by
          rw [List.take_succ, List.getElem?_eq_getElem hlt]
          exact List.mem_append_right _ (List.mem_singleton.mpr rfl)
        rw [List.all_eq_false]
        exact ⟨orig[i], hmem, by simp [hbt]⟩
      rw [← hflag]
      exact ih (i + 1) (by omega)
    · rw [if_neg hv]
      have hbf : (orig[i].value == oldv) = false := beq_eq_false_iff_ne.mpr hv
      have hrepl₂ : replPh oldv nw orig[i] = orig[i] := by
        simp [replPh, hv]
      have htake₂ : (orig.take (i + 1)).map (replPh oldv nw) =
          (orig.take i).map (replPh oldv nw) ++ [orig[i]] := by
        rw [List.take_succ, List.getElem?_eq_getElem hlt, List.map_append]
        simp [hrepl₂]
      have harg : (orig.take (i + 1)).map (replPh oldv nw) ++ orig.drop (i + 1) =
          (orig.take i).map (replPh oldv nw) ++ orig.drop i := by
        rw [htake₂]
        conv_rhs => rw [List.drop_eq_getElem_cons hlt]
        simp
      have hflag₂ : ((orig.take (i + 1)).all fun p => !(p.value == oldv)) =
          ((orig.take i).all fun p => !(p.value == oldv)) := by
        rw [List.take_succ, List.getElem?_eq_getElem hlt, List.all_append]
        simp [hbf]
      rw [← harg, ← hflag₂]
      exact ih (i + 1) (by omega)

lemma parseYMD_bounds (cs : List Char) (y m d : Nat)
    (h : parseYMD cs = some (y, m, d)) :
    1 ≤ y ∧ y ≤ 9999 ∧ 1 ≤ m ∧ m ≤ 12 ∧ 1 ≤ d ∧ d ≤ daysInMonth y m := by
  unfold parseYMD at h
  split at h
  · split at h
    · split at h
      · rename_i hcond
        simp only [Option.some.injEq, Prod.mk.injEq] at h
        obtain ⟨h1, h2, h3⟩ := h
        subst h1
        subst h2
        subst h3
        exact hcond
      · exact absurd h (by simp)
    · exact absurd h (by simp)
  · exact absurd h (by simp)

/-! ## Theorems -/

/-- Claim C1, counterexample: the Phone setter, called with the invalid
value "abc" on a field holding the valid value "0123456789", raises
ValidationError but stores "abc" — the stored value is NOT left equal to
the prior valid value, because the setter assigns before validating. -/
theorem C1_cex :
    phoneSet "0123456789" "abc" = ("abc", some PyErr.validationError) ∧
    ("abc" : String) ≠ "0123456789" := by
  decide

/-- Claim C1 (amended): calling the Phone or Birthday setter with an
invalid value raises ValidationError, but the stored value becomes the
invalid new value (assignment precedes validation), so the field — and
any Contact or AddressBook containing it — is left holding the invalid
value, not the prior valid one. -/
theorem C1_amended (v w v₂ w₂ : String)
    (hw : phoneValidate w = false) (hw₂ : birthdayValidate w₂ = false) :
    phoneSet v w = (w, some PyErr.validationError) ∧
    birthdaySet v₂ w₂ = (w₂, some PyErr.validationError) := by
  constructor
  · simp [phoneSet, hw]
  · simp [birthdaySet, hw₂]

/-- Witness for C1_amended at concrete inputs. -/
theorem C1_amended_w :
    phoneValidate "abc" = false ∧ birthdayValidate "bad" = false ∧
    (phoneSet "0123456789" "abc" = ("abc", some PyErr.validationError) ∧
      birthdaySet "2000-05-10" "bad" = ("bad", some PyErr.validationError)) :=
  ⟨by decide, by decide,
    C1_amended "0123456789" "abc" "2000-05-10" "bad" (by decide) (by decide)⟩

/-- Claim C2: the code violates the claimed no-duplicates invariant.
Starting from the reachable contact Contact("Bob", ["1234567890"]),
a second add_phone("1234567890") raises nothing and appends a second
phone with the identical value: the membership guard
`phone not in self.phones` compares by object identity (Field defines no
equality), and the freshly constructed Phone is a new object, so the
guard never fires. -/
theorem C2_duplicate_appended :
    contactNew "Bob" ["1234567890"] none = .ok bobC ∧
    (add_phone bobC "1234567890").2 = none ∧
    (add_phone bobC "1234567890").1.phones.map PhoneObj.value =
      ["1234567890", "1234567890"] := by
  decide

/-- Claim C3, counterexample: loading a nonexistent path from the
one-contact book leaves the data untouched but raises nothing at all —
`load_bin` catches FileNotFoundError itself and just prints a message,
so no error propagates to the caller. -/
theorem C3_cex :
    (load_bin [] "missing.bin" book₁).raised ≠ some PyErr.fileNotFoundError ∧
    (load_bin [] "missing.bin" book₁).data = book₁ ∧
    (load_bin [] "missing.bin" book₁).printedNotFound = true := by
  decide

/-- Claim C3 (amended): for every filesystem, nonexistent path and
in-memory book, load_bin returns normally (the FileNotFoundError is
caught inside and a message is printed; nothing propagates to the
caller) and the in-memory name-to-Contact mapping is left exactly as it
was. -/
theorem C3_amended (fs : List (String × List (String × Contact)))
    (path : String) (data : List (String × Contact))
    (h : List.lookup path fs = none) :
    load_bin fs path data = ⟨data, none, true⟩ := by
  simp [load_bin, h]

/-- Witness for C3_amended at concrete inputs. -/
theorem C3_amended_w :
    List.lookup "missing.bin" ([] : List (String × List (String × Contact))) =
      none ∧
    load_bin [] "missing.bin" book₁ = ⟨book₁, none, true⟩ :=
  ⟨rfl, C3_amended [] "missing.bin" book₁ rfl⟩

/-- Claim C10: the Contact constructor stores any birthday string
verbatim, with no Birthday validation: construction succeeds for every
string b whatsoever (the phones, by contrast, are validated). -/
theorem C10_birthday_verbatim (name b : String) (phones : List String)
    (h : phones.all phoneValidate = true) :
    contactNew name phones (some b) =
      .ok ⟨name, mkPhoneObjs phones, some b⟩ := by
  simp [contactNew, h]

/-- Witness for C10 at a concrete non-date birthday string. -/
theorem C10_birthday_verbatim_w :
    (["1234567890"] : List String).all phoneValidate = true ∧
    contactNew "Ann" ["1234567890"] (some "not-a-date") =
      .ok ⟨"Ann", mkPhoneObjs ["1234567890"], some "not-a-date"⟩ :=
  ⟨by decide, C10_birthday_verbatim "Ann" "not-a-date" ["1234567890"] (by decide)⟩

/-- Claim C5, counterexample: the ten-character string of Arabic-Indic
digits (U+0660 to U+0669) is accepted by Phone construction — its
characters are digits for str.isdigit but none of them is an ASCII
decimal digit — where the claim requires ValidationError. -/
theorem C5_cex :
    phoneNew "٠١٢٣٤٥٦٧٨٩" = .ok "٠١٢٣٤٥٦٧٨٩" ∧
    ∀ c ∈ ("٠١٢٣٤٥٦٧٨٩" : String).data, ¬('0' ≤ c ∧ c ≤ '9') := by
  decide

/-- Claim C5 (amended): Phone(p) succeeds with value p exactly when p
has exactly 10 characters each accepted by the Python str.isdigit
predicate — a strict superset of the ASCII decimal digits — and fails
with ValidationError otherwise; in particular every 10-character ASCII
digit string succeeds. -/
theorem C5_amended (s : String) :
    (phoneNew s = .ok s ↔
      s.data.length = 10 ∧ s.data.all pyIsDigitChar = true) ∧
    (s.data.length = 10 → (∀ c ∈ s.data, '0' ≤ c ∧ c ≤ '9') →
      phoneNew s = .ok s) := by
  have hmain : ∀ (hlen : s.data.length = 10)
      (hall : s.data.all pyIsDigitChar = true), phoneNew s = .ok s := by
    intro hlen hall
    have hne : s.data.isEmpty = false := by
      cases h : s.data with
      | nil => rw [h] at hlen; simp at hlen
      | cons a l => simp [List.isEmpty]
    have hv : phoneValidate s = true := by
      unfold phoneValidate phoneValidateL pyStrIsDigit
      simp [hlen, hall, hne]
    simp [phoneNew, hv]
  constructor
  · constructor
    · intro hok
      by_cases hv : phoneValidate s = true
      · have hv' := hv
        unfold phoneValidate phoneValidateL pyStrIsDigit at hv'
        simp at hv'
        exact ⟨hv'.1, by rw [List.all_eq_true]; exact hv'.2.2⟩
      · simp [phoneNew, hv] at hok
    · intro h
      exact hmain h.1 h.2
  · intro hlen hascii
    refine hmain hlen ?_
    rw [List.all_eq_true]
    intro c hc
    exact asciiDigit_pyIsDigit c (hascii c hc).1 (hascii c hc).2

/-- Witness for C5_amended: the ASCII digit string succeeds. -/
theorem C5_amended_w : phoneNew "0123456789" = .ok "0123456789" :=
  (C5_amended "0123456789").2 (by decide) (by decide)

/-- Claim C7, counterexample: on the one-contact book, iterator(0)
yields one page (holding that single rendered record), not the empty
sequence of pages the claim requires. -/
theorem C7_cex :
    iterator book₁ 0 = ["Alice: Contact name: Alice, phones: 1234567890\n"] ∧
    iterator book₁ 0 ≠ ([] : List String) := by
  decide

/-- Claim C7 (amended): a page size of zero or less behaves like page
size one — `counter >= item_number` holds after every line, so the
iterator yields one page per book entry, each holding exactly that
rendered entry. -/
theorem C7_amended (book : BookData) (n : Int) (hn : n ≤ 0) :
    iterator book n = book.map iterLine := by
  unfold iterator
  exact iterLoop_nonpos n hn (book.map iterLine)

/-- Witness for C7_amended on the one-contact book. -/
theorem C7_amended_w :
    (0 : Int) ≤ 0 ∧ iterator book₁ 0 = book₁.map iterLine :=
  ⟨le_refl 0, C7_amended book₁ 0 (le_refl 0)⟩

/-- Claim C8: search returns, in map-iteration order, one occurrence of
the contact per case-insensitive name substring hit plus one occurrence
per phone containing the query case-sensitively, duplicates preserved —
the accumulated match list equals the concatenation, entry by entry in
book order, of the name hit followed by the per-phone hits. -/
theorem C8_search (book : BookData) (q : String) :
    search book q = book.flatMap (searchEntryMatches q) := by
  unfold search
  rw [searchAcc_eq]
  simp

/-- Claim C4 (amended): for a zero-padded YYYY-MM-DD string with year in
[1,9999], month in [1,12] and day in [1,31], Birthday construction
succeeds if and only if the day does not exceed the number of days of
that month in that year (leap years respected) — day counts ARE checked
against the month, so e.g. Feb 30 is rejected.  (strptime is also more
lenient on shape than the claim assumes: it accepts one-digit month and
day tokens, see birthdayValidateL.) -/
theorem C4_amended (y m d : Nat) (hy1 : 1 ≤ y) (hy2 : y ≤ 9999)
    (hm1 : 1 ≤ m) (hm2 : m ≤ 12) (hd1 : 1 ≤ d) (hd2 : d ≤ 31) :
    birthdayNew ⟨mkDateStr y m d⟩ = .ok ⟨mkDateStr y m d⟩ ↔
      d ≤ daysInMonth y m := by
  have hval := birthdayValidateL_mkDateStr y m d hy1 hy2 hm1 hm2 hd1 hd2
  constructor
  · intro h
    by_cases hb : birthdayValidateL (mkDateStr y m d) = true
    · exact hval.mp hb
    · simp [birthdayNew, birthdayValidate, hb] at h
  · intro h
    simp [birthdayNew, birthdayValidate, hval.mpr h]

/-- Claim C4, counterexample: the string "2000-02-30" has the exact
YYYY-MM-DD shape with month 2 in [1,12] and day 30 in [1,31], yet
Birthday construction fails with ValidationError: strptime itself
validates the day against the month and the leap-year rule. -/
theorem C4_cex :
    birthdayNew "2000-02-30" = .error PyErr.validationError ∧
    (2 : Nat) ≤ 12 ∧ (30 : Nat) ≤ 31 := by
  decide

/-- Witness for C4_amended: Feb 29 of the leap year 2000 is accepted. -/
theorem C4_amended_w :
    birthdayNew ⟨mkDateStr 2000 2 29⟩ = .ok ⟨mkDateStr 2000 2 29⟩ :=
  (C4_amended 2000 2 29 (by decide) (by decide) (by decide) (by decide)
    (by decide) (by decide)).mpr (by decide)

/-- Claim C6: for every well-formed Contact phone list and valid phone
strings old and new, edit_phone replaces every phone whose value equals
old by the new phone (all matches, non-matching positions untouched),
raising nothing; when no phone matches old it raises NotFoundError and
leaves the phone list unchanged. -/
theorem C6_theorem (ps : List PhoneObj) (olds news : String)
    (hwf : PhonesWf ps) (ho : phoneValidate olds = true)
    (hn : phoneValidate news = true) :
    ((∃ p ∈ ps, p.value = olds) →
      edit_phone ps olds news =
        (ps.map (replPh olds ⟨freshPhoneId ps, news⟩), none)) ∧
    ((∀ p ∈ ps, p.value ≠ olds) →
      edit_phone ps olds news = (ps, some PyErr.notFoundError)) := by
  have hloop := editLoop_go olds ⟨freshPhoneId ps, news⟩ ps hwf
    (fun p hp => freshPhoneId_gt ps p hp) ps.length 0 (by omega)
  simp only [List.take_zero, List.map_nil, List.nil_append, List.drop_zero,
    List.all_nil] at hloop
  constructor
  · intro hex
    have hall : (ps.all fun p => !(p.value == olds)) = false := by
      rcases hex with ⟨p, hp, hpv⟩
      rw [List.all_eq_false]
      exact ⟨p, hp, by simp [beq_iff_eq.mpr hpv]⟩
    unfold edit_phone
    rw [if_pos ho, if_pos hn]
    simp only []
    rw [hloop]
    simp [hall]
  · intro hnone
    have hall : (ps.all fun p => !(p.value == olds)) = true := by
      rw [List.all_eq_true]
      intro p hp
      simp [beq_eq_false_iff_ne.mpr (hnone p hp)]
    have hmap : ps.map (replPh olds ⟨freshPhoneId ps, news⟩) = ps := by
      have hid : ∀ p ∈ ps, replPh olds ⟨freshPhoneId ps, news⟩ p = p := by
        intro p hp
        simp [replPh, hnone p hp]
      calc ps.map (replPh olds ⟨freshPhoneId ps, news⟩) = ps.map id :=
            List.map_congr_left hid
        _ = ps := List.map_id ps
    unfold edit_phone
    rw [if_pos ho, if_pos hn]
    simp only []
    rw [hloop]
    simp [hall, hmap]

/-- Witness for C6_theorem on a one-phone contact. -/
theorem C6_theorem_w :
    edit_phone [⟨1, "1111111111"⟩] "1111111111" "2222222222" =
      ([⟨2, "2222222222"⟩], none) := by
  have h := (C6_theorem [⟨1, "1111111111"⟩] "1111111111" "2222222222"
    (by unfold PhonesWf; decide) (by decide) (by decide)).1 (by decide)
  exact h.trans (by decide)

/-- Claim C9 (amended): when the current date equals the stored
month/day (this year), the current-year branch is taken only if
datetime.now() is exactly midnight — then the result is the 0-days
message; any positive time of day makes `today > next_birthday` true
(next_birthday has time 00:00:00), so the code jumps to next year and
reports one day less than the full year distance. -/
theorem C9_amended (today : PyDateTime) (name b : String)
    (phones : List PhoneObj) (y m d : Nat)
    (hparse : parseYMD b.data = some (y, m, d))
    (hm : today.month = m) (hd : today.day = d)
    (hy1 : 1 ≤ today.year) (hy2 : today.year ≤ 9999)
    (hvd : d ≤ daysInMonth today.year m) :
    (today.tod = 0 →
      days_to_birthday today ⟨name, phones, some b⟩ =
        .ok (some (mkDaysMsg 0 name))) ∧
    (0 < today.tod → today.tod < DAYUS → today.year + 1 ≤ 9999 →
      d ≤ daysInMonth (today.year + 1) m →
      days_to_birthday today ⟨name, phones, some b⟩ =
        .ok (some (mkDaysMsg
          ((ordinal (today.year + 1) m d : Int) -
            (ordinal today.year m d : Int) - 1) name))) := by
  obtain ⟨ty, tm, td, tod⟩ := today
  simp only at hm hd hy1 hy2 hvd ⊢
  subst hm
  subst hd
  obtain ⟨hby1, hby2, hm1, hm2, hd1, hdim⟩ := parseYMD_bounds _ _ _ _ hparse
  have hb : (b == "") = false := by
    apply beq_eq_false_iff_ne.mpr
    intro hbe
    subst hbe
    have hnone : parseYMD ("" : String).data = none := by decide
    rw [hnone] at hparse
    simp at hparse
  have hmk : dtMake ty tm td = .ok ⟨ty, tm, td, 0⟩ := by
    unfold dtMake
    rw [if_pos ⟨hy1, hy2, hm1, hm2, hd1, hvd⟩]
  constructor
  · intro h0
    subst h0
    have hlt : dtLt ⟨ty, tm, td, 0⟩ ⟨ty, tm, td, 0⟩ = false := by
      simp [dtLt]
    have htd : tdDays ⟨ty, tm, td, 0⟩ ⟨ty, tm, td, 0⟩ = 0 := by
      unfold tdDays
      rw [sub_self]
      exact Int.zero_ediv _
    unfold days_to_birthday
    simp only [hb, Bool.false_eq_true, if_false, hparse, hmk, hlt, htd]
  · intro ht1 ht2 hy3 hvd2
    have hlt : dtLt ⟨ty, tm, td, 0⟩ ⟨ty, tm, td, tod⟩ = true := by
      simp [dtLt]
      omega
    have hmk2 : dtMake (ty + 1) tm td = .ok ⟨ty + 1, tm, td, 0⟩ := by
      unfold dtMake
      rw [if_pos ⟨by omega, hy3, hm1, hm2, hd1, hvd2⟩]
    have htodlt : (tod : Int) < (DAYUS : Int) := by exact_mod_cast ht2
    have htodpos : (0 : Int) < (tod : Int) := by exact_mod_cast ht1
    have hDpos : (0 : Int) < (DAYUS : Int) := by norm_num [DAYUS]
    have htd : tdDays ⟨ty + 1, tm, td, 0⟩ ⟨ty, tm, td, tod⟩ =
        (ordinal (ty + 1) tm td : Int) - (ordinal ty tm td : Int) - 1 := by
      unfold tdDays dtMicros
      simp only
      push_cast
      have h1 : (ordinal (ty + 1) tm td : Int) * (DAYUS : Int) + 0 -
          ((ordinal ty tm td : Int) * (DAYUS : Int) + (tod : Int)) =
          ((DAYUS : Int) - (tod : Int)) +
            ((ordinal (ty + 1) tm td : Int) - (ordinal ty tm td : Int) - 1) *
              (DAYUS : Int) := by
        ring
      rw [h1, Int.add_mul_ediv_right _ _ (by omega),
        Int.ediv_eq_zero_of_lt (by omega) (by omega)]
      ring
    unfold days_to_birthday
    simp only [hb, Bool.false_eq_true, if_false, hparse, hmk, hlt, hmk2, htd, if_true]

/-- Claim C9, counterexample: on the birthday itself (2024-05-10, one
microsecond past midnight, stored birthday 2000-05-10) the code takes
the next-year branch and reports 364 days, not the 0-days current-year
result the claim requires. -/
theorem C9_cex :
    days_to_birthday ⟨2024, 5, 10, 1⟩ ⟨"Alice", [], some "2000-05-10"⟩ =
      .ok (some "364 days left until birthday Alice") ∧
    days_to_birthday ⟨2024, 5, 10, 1⟩ ⟨"Alice", [], some "2000-05-10"⟩ ≠
      .ok (some (mkDaysMsg 0 "Alice")) := by
  decide

/-- Witness for C9_amended: at exactly midnight of the birthday the
current-year branch gives the 0-days message. -/
theorem C9_amended_w :
    days_to_birthday ⟨2024, 5, 10, 0⟩ ⟨"Alice", [], some "2000-05-10"⟩ =
      .ok (some (mkDaysMsg 0 "Alice")) :=
  (C9_amended ⟨2024, 5, 10, 0⟩ "Alice" "2000-05-10" [] 2000 5 10
    (by decide) rfl rfl (by decide) (by decide) (by decide)).1 rfl

end HW
